import Mathlib

/-!
Verification of the YTDL download-orchestration engine against its design
specification.  The definitions below are a shallow embedding of the Python
sources (`src/v2/youtube_downloader.py`, `src/web_app.py`): pure functions are
translated directly, the standard-mode retry loop is modelled as a step
function over attempt indices, and I/O results (backend downloads, ffmpeg
invocations, the cancellation flag) are supplied as explicit oracle
parameters.
-/

namespace YTDL

/-! ### String primitives

Kernel-computable models of the Python string operations used by the engine
(`str.lower` for ASCII, and the `in` substring test used to express filter
presence). -/

/-- ASCII lower-casing of one character (model of Python `str.lower` per char). -/
def lowerChar (c : Char) : Char :=
  if 65 ≤ c.toNat ∧ c.toNat ≤ 90 then Char.ofNat (c.toNat + 32) else c

/-- Model of Python `str.lower()` (ASCII). -/
def strToLower (s : String) : String := ⟨s.data.map lowerChar⟩

/-- `pat` is a prefix of the second list. -/
def listPrefix : List Char → List Char → Bool
  | [], _ => true
  | _ :: _, [] => false
  | a :: as, b :: bs => a == b && listPrefix as bs

/-- `pat` occurs contiguously inside the second list. -/
def listInfix (pat : List Char) : List Char → Bool
  | [] => pat.isEmpty
  | c :: rest => listPrefix pat (c :: rest) || listInfix pat rest

/-! ## Quality Ladder Builder

Shallow embedding of `YouTubeDownloader._get_quality_fallbacks(quality, is_dzen)`
(src/v2/youtube_downloader.py lines 1695-1924).  The Python dictionaries become
`Option`-returning lookup functions keyed on `quality.lower()`; `dict.get`'s
default argument becomes `Option.getD`.  `can_merge` in the source is
`self.merger.ffmpeg_available`; it is an explicit parameter here.
-/

/-- The Dzen family's ladder for the `'best'` key, which is also the family's
`dict.get` default (`dzen_fallbacks.get(quality.lower(), dzen_fallbacks['best'])`). -/
def dzenBestLadder : List String :=
  [ "best[ext=mp4]",
    "bestvideo[ext=mp4]+bestaudio[ext=m4a]/best",
    "best[height<=1080]",
    "best[height<=720]",
    "best" ]

/-- Per-tier ladders of the Dzen platform-override family (`dzen_fallbacks`). -/
def dzenLadder (lq : String) : List String :=
  if lq = "best" then dzenBestLadder
  else if lq = "4k" then
    [ "best[height<=2160][ext=mp4]",
      "best[height<=1440][ext=mp4]",
      "bestvideo[height<=2160][ext=mp4]+bestaudio[ext=m4a]/best[height<=2160]",
      "bestvideo[height<=1440][ext=mp4]+bestaudio[ext=m4a]/best[height<=1440]",
      "best[ext=mp4]",
      "best" ]
  else if lq = "1440p" then
    [ "best[height<=1440][ext=mp4]",
      "best[height<=1080][ext=mp4]",
      "bestvideo[height<=1440][ext=mp4]+bestaudio[ext=m4a]/best[height<=1440]",
      "bestvideo[height<=1080][ext=mp4]+bestaudio[ext=m4a]/best[height<=1080]",
      "best[ext=mp4]",
      "best" ]
  else if lq = "1080p" then
    [ "best[height<=1080][ext=mp4]",
      "best[height<=720][ext=mp4]",
      "bestvideo[height<=1080][ext=mp4]+bestaudio[ext=m4a]/best[height<=1080]",
      "bestvideo[height<=720][ext=mp4]+bestaudio[ext=m4a]/best[height<=720]",
      "best[ext=mp4]",
      "best" ]
  else if lq = "720p" then
    [ "best[height<=720][ext=mp4]",
      "best[height<=480][ext=mp4]",
      "bestvideo[height<=720][ext=mp4]+bestaudio[ext=m4a]/best[height<=720]",
      "bestvideo[height<=480][ext=mp4]+bestaudio[ext=m4a]/best[height<=480]",
      "best[ext=mp4]",
      "best" ]
  else if lq = "480p" then
    [ "best[height<=480][ext=mp4]",
      "best[height<=360][ext=mp4]",
      "bestvideo[height<=480][ext=mp4]+bestaudio[ext=m4a]/best[height<=480]",
      "bestvideo[height<=360][ext=mp4]+bestaudio[ext=m4a]/best[height<=360]",
      "best[ext=mp4]",
      "best" ]
  else if lq = "360p" then
    [ "best[height<=360][ext=mp4]",
      "best[height<=240][ext=mp4]",
      "bestvideo[height<=360][ext=mp4]+bestaudio[ext=m4a]/best[height<=360]",
      "bestvideo[height<=240][ext=mp4]+bestaudio[ext=m4a]/best[height<=240]",
      "best[ext=mp4]",
      "best" ]
  else dzenBestLadder

/-- The merge-capable (`can_merge = True`) ladder dictionary. -/
def mergeLadder (lq : String) : Option (List String) :=
  if lq = "best" then some
    [ "bestvideo[height>=1080]+bestaudio/best[height>=1080]",
      "bestvideo[height>=720]+bestaudio/best[height>=720]",
      "bestvideo+bestaudio/best[height>=480]",
      "best[height>=1080]", "best[height>=720]", "best[height>=480]",
      "best[height<=2160]", "best[height<=1080]", "best[height<=720]",
      "bestvideo[ext=mp4]+bestaudio[ext=m4a]/best[ext=mp4]",
      "bestvideo+bestaudio/best", "best" ]
  else if lq = "4k" then some
    [ "bestvideo[height>=2160]+bestaudio/best[height>=2160]",
      "bestvideo[height>=1440]+bestaudio/best[height>=1440]",
      "bestvideo[height>=1080]+bestaudio/best[height>=1080]",
      "best[height>=2160]", "best[height>=1440]", "best[height>=1080]",
      "best[height<=2160]", "best[height<=1440]", "best[height<=1080]",
      "bestvideo[height>=2160]+bestaudio/best[height<=2160]",
      "bestvideo+bestaudio/best", "best" ]
  else if lq = "1440p" then some
    [ "bestvideo[height<=1440][height>=1080]+bestaudio/best[height<=1440][height>=1080]",
      "bestvideo[height<=1440]+bestaudio/best[height<=1440]",
      "best[height<=1440][height>=1080]",
      "best[height<=1440]", "best[height>=1080]",
      "bestvideo[height>=1080]+bestaudio/best[height>=1080]",
      "bestvideo+bestaudio/best", "best" ]
  else if lq = "1080p" then some
    [ "bestvideo[height<=1080][height>=720]+bestaudio/best[height<=1080][height>=720]",
      "bestvideo[height<=1080]+bestaudio/best[height<=1080]",
      "best[height<=1080][height>=720]",
      "best[height<=1080]", "best[height>=720]",
      "bestvideo[height>=720]+bestaudio/best[height>=720]",
      "bestvideo+bestaudio/best", "best" ]
  else if lq = "720p" then some
    [ "bestvideo[height<=720][height>=480]+bestaudio/best[height<=720][height>=480]",
      "bestvideo[height<=720]+bestaudio/best[height<=720]",
      "best[height<=720][height>=480]",
      "best[height<=720]", "best[height>=480]",
      "bestvideo[height>=480]+bestaudio/best[height>=480]",
      "bestvideo+bestaudio/best", "best" ]
  else if lq = "480p" then some
    [ "bestvideo[height<=480][height>=360]+bestaudio/best[height<=480][height>=360]",
      "bestvideo[height<=480]+bestaudio/best[height<=480]",
      "best[height<=480][height>=360]",
      "best[height<=480]", "best[height>=360]",
      "bestvideo[height>=360]+bestaudio/best[height>=360]",
      "bestvideo+bestaudio/best", "best" ]
  else if lq = "360p" then some
    [ "bestvideo[height<=360][height>=240]+bestaudio/best[height<=360][height>=240]",
      "bestvideo[height<=360]+bestaudio/best[height<=360]",
      "best[height<=360][height>=240]",
      "best[height<=360]", "best[height>=240]",
      "bestvideo[height>=240]+bestaudio/best[height>=240]",
      "bestvideo+bestaudio/best", "best" ]
  else if lq = "240p" then some
    [ "bestvideo[height<=240][height>=144]+bestaudio/best[height<=240][height>=144]",
      "bestvideo[height<=240]+bestaudio/best[height<=240]",
      "best[height<=240][height>=144]",
      "best[height<=240]", "best[height>=144]",
      "bestvideo[height>=144]+bestaudio/best[height>=144]",
      "bestvideo+bestaudio/best", "best" ]
  else if lq = "144p" then some
    [ "bestvideo[height<=144]+bestaudio/best[height<=144]",
      "best[height<=144]",
      "bestvideo[height>=144]+bestaudio/best[height>=144]",
      "bestvideo+bestaudio/best", "best" ]
  else none

/-- The merge-incapable (`can_merge = False`) ladder dictionary. -/
def noMergeLadder (lq : String) : Option (List String) :=
  if lq = "best" then some
    [ "best[vcodec!*=none][acodec!*=none]",
      "best[height>=1080][vcodec!*=none][acodec!*=none]",
      "best[height>=720][vcodec!*=none][acodec!*=none]",
      "best[height>=480][vcodec!*=none][acodec!*=none]",
      "best[ext=mp4]", "best" ]
  else if lq = "4k" then some
    [ "best[height>=2160][vcodec!*=none][acodec!*=none]",
      "best[height>=1440][vcodec!*=none][acodec!*=none]",
      "best[height>=1080][vcodec!*=none][acodec!*=none]",
      "best[height>=720][vcodec!*=none][acodec!*=none]",
      "best[vcodec!*=none][acodec!*=none]",
      "best[ext=mp4]", "best" ]
  else if lq = "1440p" then some
    [ "best[height>=1440][vcodec!*=none][acodec!*=none]",
      "best[height>=1080][vcodec!*=none][acodec!*=none]",
      "best[height>=720][vcodec!*=none][acodec!*=none]",
      "best[height>=480][vcodec!*=none][acodec!*=none]",
      "best[vcodec!*=none][acodec!*=none]",
      "best[ext=mp4]", "best" ]
  else if lq = "1080p" then some
    [ "best[height>=1080][vcodec!*=none][acodec!*=none]",
      "best[height>=720][vcodec!*=none][acodec!*=none]",
      "best[height>=480][vcodec!*=none][acodec!*=none]",
      "best[height>=360][vcodec!*=none][acodec!*=none]",
      "best[vcodec!*=none][acodec!*=none]",
      "best[ext=mp4]", "best" ]
  else if lq = "720p" then some
    [ "best[height>=720][vcodec!*=none][acodec!*=none]",
      "best[height>=480][vcodec!*=none][acodec!*=none]",
      "best[height>=360][vcodec!*=none][acodec!*=none]",
      "best[height>=240][vcodec!*=none][acodec!*=none]",
      "best[vcodec!*=none][acodec!*=none]",
      "best[ext=mp4]", "best" ]
  else if lq = "480p" then some
    [ "best[height=480][vcodec!*=none][acodec!*=none]",
      "best[height>=480][height<720][vcodec!*=none][acodec!*=none]",
      "best[height<=480][height>=360][vcodec!*=none][acodec!*=none]",
      "best[height<=480][vcodec!*=none][acodec!*=none]",
      "best[ext=mp4]", "best" ]
  else if lq = "360p" then some
    [ "best[height=360][vcodec!*=none][acodec!*=none]",
      "best[height>=360][height<480][vcodec!*=none][acodec!*=none]",
      "best[height<=360][height>=240][vcodec!*=none][acodec!*=none]",
      "best[height<=360][vcodec!*=none][acodec!*=none]",
      "best[ext=mp4]", "best" ]
  else if lq = "240p" then some
    [ "best[height=240][vcodec!*=none][acodec!*=none]",
      "best[height>=240][height<360][vcodec!*=none][acodec!*=none]",
      "best[height<=240][height>=144][vcodec!*=none][acodec!*=none]",
      "best[height<=240][vcodec!*=none][acodec!*=none]",
      "best[ext=mp4]", "best",
      "worst[height=240][vcodec!*=none][acodec!*=none]", "worst[ext=mp4]", "worst" ]
  else if lq = "144p" then some
    [ "best[height=144][vcodec!*=none][acodec!*=none]",
      "best[height>=144][height<240][vcodec!*=none][acodec!*=none]",
      "best[height<=144][vcodec!*=none][acodec!*=none]",
      "best[ext=mp4]", "best",
      "worst[height=144][vcodec!*=none][acodec!*=none]", "worst[ext=mp4]", "worst" ]
  else none

/-- The `dict.get` default of the non-Dzen families: the final
`fallbacks.get(quality.lower(), [... conditional on can_merge ..., 'best'])`. -/
def defaultLadder (canMerge : Bool) : List String :=
  [ if canMerge then "bestvideo[height>=720]+bestaudio/best[height>=720]"
    else "best[height>=720][vcodec!*=none][acodec!*=none]",
    if canMerge then "bestvideo[height>=480]+bestaudio/best[height>=480]"
    else "best[height>=480][vcodec!*=none][acodec!*=none]",
    if canMerge then "bestvideo[height>=360]+bestaudio/best[height>=360]"
    else "best[height>=360][vcodec!*=none][acodec!*=none]",
    if canMerge then "bestvideo+bestaudio/best"
    else "best[vcodec!*=none][acodec!*=none]",
    "best" ]

/-- `_get_quality_fallbacks(quality, is_dzen)` with `can_merge`
(`self.merger.ffmpeg_available` in the source) made explicit. -/
def getQualityFallbacks (quality : String) (isDzen canMerge : Bool) : List String :=
  if isDzen then dzenLadder (strToLower quality)
  else if canMerge then (mergeLadder (strToLower quality)).getD (defaultLadder true)
  else (noMergeLadder (strToLower quality)).getD (defaultLadder false)

/-- The ladder as built by `_download_standard_mode` (line 1068):
`is_dzen` is `detected_platform == 'dzen'`. -/
def buildLadder (quality platform : String) (canMerge : Bool) : List String :=
  getQualityFallbacks quality (platform == "dzen") canMerge

/-- The quality tiers enumerated in the spec's data model
(`best/4k/1440p/1080p/720p/480p/360p/240p/144p`). -/
def supportedTiers : List String :=
  ["best", "4k", "1440p", "1080p", "720p", "480p", "360p", "240p", "144p"]

/-- The platform tags of `_detect_platform`. -/
def platformTags : List String :=
  ["youtube", "vk", "dzen", "rutube", "instagram", "tiktok", "twitch", "vimeo", "unknown"]

/-- `pat` occurs as a substring of `s`. -/
def containsSub (s pat : String) : Bool :=
  listInfix pat.data s.data

/-- The selector filters to formats with a non-null video codec. -/
def hasVideoFilter (s : String) : Bool := containsSub s "[vcodec!*=none]"

/-- The selector filters to formats with a non-null audio codec. -/
def hasAudioFilter (s : String) : Bool := containsSub s "[acodec!*=none]"

/-- The selector carries both the explicit video-codec and audio-codec filters. -/
def hasCombinedFilter (s : String) : Bool := hasVideoFilter s && hasAudioFilter s

/-- The unconditional escape-hatch selectors carrying no filter at all. -/
def isUnconditional (s : String) : Bool := s == "best" || s == "worst"

/-- The trailing universal fallbacks of the merge-incapable ladders that carry
no codec filter. -/
def universalFallbacks : List String :=
  ["best[ext=mp4]", "best", "worst[ext=mp4]", "worst"]

/-! ## Ladder theorems (claims C1, C3, C10) -/

/-- C1 counterexample: the merge-incapable (non-Dzen) ladder for the `best`
tier contains the entry `best[ext=mp4]`, which carries neither the video-codec
nor the audio-codec filter.  This refutes the claim that every entry of a
merge-incapable ladder filters to formats carrying both codecs. -/
theorem c1_merge_incapable_filter_counterexample :
    "best[ext=mp4]" ∈ getQualityFallbacks "best" false false ∧
      hasCombinedFilter "best[ext=mp4]" = false ∧
      hasVideoFilter "best[ext=mp4]" = false ∧
      hasAudioFilter "best[ext=mp4]" = false := by
  decide

/-- Every entry produced by the merge-incapable dictionary, for any key,
either carries both codec filters or is one of the four universal fallbacks. -/
lemma noMergeLadder_entries (lq : String) :
    ∀ l, noMergeLadder lq = some l →
      ∀ e ∈ l, hasCombinedFilter e = true ∨ e ∈ universalFallbacks := by
  unfold noMergeLadder
  split_ifs <;> intro l hl <;>
    first
      | exact hl.elim
      | exact Option.noConfusion hl
      | (obtain rfl := Option.some.inj hl; decide)

/-- C1 amended: in every merge-incapable (non-Dzen) ladder, every entry either
filters to formats carrying both a non-null video codec and a non-null audio
codec, or is one of the trailing universal fallbacks
`best[ext=mp4]`, `best`, `worst[ext=mp4]`, `worst` — the ladder's escape
hatches, which carry no codec filter. -/
theorem c1_merge_incapable_filter_amended (quality : String) :
    ∀ e ∈ getQualityFallbacks quality false false,
      hasCombinedFilter e = true ∨ e ∈ universalFallbacks := by
  intro e he
  unfold getQualityFallbacks at he
  simp only [if_neg Bool.false_ne_true, Bool.false_eq_true, if_false] at he
  rcases hn : noMergeLadder (strToLower quality) with _ | l
  · rw [hn] at he
    simp only [Option.getD_none] at he
    revert e he
    decide
  · rw [hn] at he
    simp only [Option.getD_some] at he
    exact noMergeLadder_entries (strToLower quality) l hn e he

/-- C1 amended witness at a concrete input: the first entry of the
merge-incapable `best` ladder carries both filters. -/
theorem c1_merge_incapable_filter_amended_witness :
    hasCombinedFilter "best[vcodec!*=none][acodec!*=none]" = true ∨
      "best[vcodec!*=none][acodec!*=none]" ∈ universalFallbacks :=
  c1_merge_incapable_filter_amended "best" _ (by decide)

/-- Enumerated core of C3: over the nine supported tiers and both values of
`is_dzen` and `can_merge`, the ladder is non-empty and its last entry is one of
the unconditional selectors `best` / `worst`. -/
lemma ladder_last_unconditional :
    ∀ q ∈ supportedTiers, ∀ d m : Bool,
      getQualityFallbacks q d m ≠ [] ∧
        ((getQualityFallbacks q d m).getLast? = some "best" ∨
          (getQualityFallbacks q d m).getLast? = some "worst") := by
  decide

/-- C3: for every supported quality tier, every platform tag and both
merge-capability states, the ladder is a non-empty sequence whose last element
is an unconditional fallback selector (`best`, or `worst` for the low-tier
merge-incapable ladders), and the builder is deterministic — it is a pure
function, so two calls with identical inputs are definitionally identical. -/
theorem c3_ladder_nonempty_last_unconditional (q p : String) (m : Bool)
    (hq : q ∈ supportedTiers) :
    buildLadder q p m ≠ [] ∧
      ((buildLadder q p m).getLast? = some "best" ∨
        (buildLadder q p m).getLast? = some "worst") ∧
      buildLadder q p m = buildLadder q p m := by
  obtain ⟨h1, h2⟩ := ladder_last_unconditional q hq (p == "dzen") m
  exact ⟨h1, h2, rfl⟩

/-- C3 witness at a concrete input. -/
theorem c3_ladder_nonempty_last_unconditional_witness :
    buildLadder "720p" "youtube" true ≠ [] ∧
      ((buildLadder "720p" "youtube" true).getLast? = some "best" ∨
        (buildLadder "720p" "youtube" true).getLast? = some "worst") ∧
      buildLadder "720p" "youtube" true = buildLadder "720p" "youtube" true :=
  c3_ladder_nonempty_last_unconditional "720p" "youtube" true (by decide)

/-- C10: the ladder builder is total over arbitrary quality strings.  For any
quality whose lower-casing is not a recognized tier key, the builder returns
the fixed default ladder of the selected family (the Dzen `best` ladder, or the
non-Dzen conditional default), which is non-empty and ends in the unconditional
selector `best`. -/
theorem c10_unrecognized_quality_default (q : String)
    (h : strToLower q ∉ supportedTiers) (d m : Bool) :
    getQualityFallbacks q d m = (if d then dzenBestLadder else defaultLadder m) ∧
      getQualityFallbacks q d m ≠ [] ∧
      (getQualityFallbacks q d m).getLast? = some "best" := by
  simp only [supportedTiers, List.mem_cons, List.not_mem_nil, or_false, not_or] at h
  obtain ⟨h1, h2, h3, h4, h5, h6, h7, h8, h9⟩ := h
  have hdz : dzenLadder (strToLower q) = dzenBestLadder := by
    unfold dzenLadder
    simp [h1, h2, h3, h4, h5, h6, h7]
  have hm : mergeLadder (strToLower q) = none := by
    unfold mergeLadder
    simp [h1, h2, h3, h4, h5, h6, h7, h8, h9]
  have hn : noMergeLadder (strToLower q) = none := by
    unfold noMergeLadder
    simp [h1, h2, h3, h4, h5, h6, h7, h8, h9]
  unfold getQualityFallbacks
  cases d <;> cases m <;> simp [hdz, hm, hn] <;> decide

/-- C10 witness at the unrecognized quality string `"ultra"`. -/
theorem c10_unrecognized_quality_default_witness :
    getQualityFallbacks "ultra" false true =
        (if false then dzenBestLadder else defaultLadder true) ∧
      getQualityFallbacks "ultra" false true ≠ [] ∧
      (getQualityFallbacks "ultra" false true).getLast? = some "best" :=
  c10_unrecognized_quality_default "ultra" (by decide) false true

/-! ## Retry/Recovery State Machine (standard mode)

Shallow embedding of the `for attempt, fmt in enumerate(quality_options)` loop
of `_download_standard_mode` (src/v2/youtube_downloader.py lines 1072-1228).
The substring tests performed on `str(e)` become Boolean flags of an `ErrMsg`
record; the `except` dispatch chain becomes `classifyError`, whose result is
either `abort` (a `return False` in the loop body) or `advance` (a `continue`,
or falling off the end of the `except` block — both move the loop to the next
ladder entry).  The backend (`_ydl_download_with_ssl_fallback`) is an oracle
`res : Nat → AttemptRes` giving each ladder entry's outcome, and the
cancellation flag read by `_is_cancelled()` at the head of each iteration is
an oracle `cancelAt : Nat → Bool`. -/

/-- The substring classifications applied to the stringified exception. -/
structure ErrMsg where
  /-- `'400' in error_msg` -/
  has400 : Bool
  /-- `'404' in error_msg` -/
  has404 : Bool
  /-- `'403' in error_msg or 'Forbidden' in error_msg` -/
  has403 : Bool
  /-- `'WinError 5' in error_msg or 'Access is denied' in error_msg` -/
  hasWinErr : Bool
  /-- `'Initialization fragment' in error_msg or 'fragment' in error_msg.lower()` -/
  hasFragment : Bool
  /-- `'not available' in error_msg.lower()` -/
  hasNotAvailable : Bool
deriving DecidableEq

/-- An error whose message mentions 404 and none of the other classifiers. -/
def pure404 : ErrMsg := ⟨false, true, false, false, false, false⟩

/-- An error whose message mentions 403/Forbidden and none of the other
classifiers. -/
def pure403 : ErrMsg := ⟨false, false, true, false, false, false⟩

/-- An error matched by none of the classifiers (the generic `else` branch;
also how a cancellation raised inside the progress hook surfaces, as the
wrapper exception `'Download failed'`). -/
def genericErr : ErrMsg := ⟨false, false, false, false, false, false⟩

/-- The recovery applied on a `continue` (or fall-through) transition. -/
inductive Recovery
  /-- Dzen 400/404 at attempt 0: retry with the next format. -/
  | dzenFormatRetry
  /-- Rutube WinError 5: 2s delay then continue. -/
  | rutubeDelay
  /-- Twitch fragment error at attempt 0: force combined format. -/
  | twitchForceCombined
  /-- Twitch fragment error at attempt 1: delay and retry next. -/
  | twitchDelay
  /-- 403 at attempt < 2: `ErrorHandler.handle_403_error` (UA rotation plus
  backoff sleep). -/
  | recover403
  /-- `'not available'`: plain `continue` to the next format. -/
  | formatNotAvailable
  /-- Generic error before the last entry: jittered 1-3s delay, continue. -/
  | genericDelay
  /-- No recovery: control falls off the `except` block and the loop simply
  moves on (403 persisting past attempt 2, or a generic error on the last
  entry). -/
  | fallthrough
deriving DecidableEq

/-- The state-machine transition taken for one failed attempt. -/
inductive ErrAction
  /-- `return False` from inside the loop: the job terminates. -/
  | abort
  /-- The loop proceeds to the next ladder entry. -/
  | advance (r : Recovery)
deriving DecidableEq

/-- The `except Exception` dispatch chain of `_download_standard_mode`
(lines 1154-1216), as a function of the platform, the ladder index `attempt`,
the ladder length and the error classification. -/
def classifyError (platform : String) (attempt ladderLen : Nat) (e : ErrMsg) :
    ErrAction :=
  if platform == "dzen" && (e.has400 || e.has404) then
    if attempt == 0 then .advance .dzenFormatRetry else .abort
  else if platform == "rutube" && e.hasWinErr then
    .advance .rutubeDelay
  else if platform == "twitch" && e.hasFragment then
    if attempt == 0 then .advance .twitchForceCombined
    else if attempt < 2 then .advance .twitchDelay
    else .abort
  else if e.has403 then
    if attempt < 2 then .advance .recover403 else .advance .fallthrough
  else if e.has404 then .abort
  else if e.hasNotAvailable then .advance .formatNotAvailable
  else if attempt < ladderLen - 1 then .advance .genericDelay
  else .advance .fallthrough

/-- Outcome of one backend attempt (`_ydl_download_with_ssl_fallback` plus the
`raise Exception('Download failed')` wrapper). -/
inductive AttemptRes
  /-- The download succeeded (`return True`). -/
  | ok
  /-- The attempt raised; `e` is the classification of its message. -/
  | err (e : ErrMsg)
deriving DecidableEq

/-- One loop iteration per step: at index `i` (with `fuel` entries left) check
the cancellation flag, attempt the entry, dispatch the failure.  Returns the
job's Boolean outcome and the trace of ladder indices actually attempted
(i.e. for which the backend download was invoked). -/
def stdRunAux (platform : String) (cancelAt : Nat → Bool)
    (res : Nat → AttemptRes) (ladderLen : Nat) : Nat → Nat → Bool × List Nat
  | _, 0 => (false, [])
  | i, fuel + 1 =>
    if cancelAt i then (false, [])
    else
      match res i with
      | .ok => (true, [i])
      | .err e =>
        match classifyError platform i ladderLen e with
        | .abort => (false, [i])
        | .advance _ =>
          let rest := stdRunAux platform cancelAt res ladderLen (i + 1) fuel
          (rest.1, i :: rest.2)

/-- The whole standard-mode loop over a ladder of `ladderLen` entries. -/
def stdRun (platform : String) (cancelAt : Nat → Bool)
    (res : Nat → AttemptRes) (ladderLen : Nat) : Bool × List Nat :=
  stdRunAux platform cancelAt res ladderLen 0 ladderLen

/-- `ErrorHandler.get_fallback_user_agents` (lines 88-97). -/
def fallbackUserAgents : List String :=
  [ "Mozilla/5.0 (Windows NT 10.0; Win64; x64) AppleWebKit/537.36 (KHTML, like Gecko) Chrome/121.0.0.0 Safari/537.36",
    "Mozilla/5.0 (Windows NT 10.0; Win64; x64) AppleWebKit/537.36 (KHTML, like Gecko) Chrome/120.0.0.0 Safari/537.36",
    "Mozilla/5.0 (Macintosh; Intel Mac OS X 10_15_7) AppleWebKit/537.36 (KHTML, like Gecko) Chrome/121.0.0.0 Safari/537.36",
    "Mozilla/5.0 (Windows NT 10.0; Win64; x64; rv:122.0) Gecko/20100101 Firefox/122.0",
    "Mozilla/5.0 (X11; Linux x86_64) AppleWebKit/537.36 (KHTML, like Gecko) Chrome/121.0.0.0 Safari/537.36" ]

/-- The user-agent index chosen by `ErrorHandler.handle_403_error`
(`ua_index = attempt % len(user_agents)`). -/
def handle403UserAgentIndex (attempt : Nat) : Nat :=
  attempt % fallbackUserAgents.length

/-- The backoff delay of `handle_403_error`
(`min(30, 5 + attempt * 3 + random.uniform(1, 3))`), as a function of the
jitter sample. -/
def handle403Delay (attempt : Nat) (jitter : ℚ) : ℚ :=
  min 30 (5 + (attempt : ℚ) * 3 + jitter)

/-- `handle_403_error` sleeps only when `attempt > 0`. -/
def handle403SleepDelay (attempt : Nat) (jitter : ℚ) : Option ℚ :=
  if 0 < attempt then some (handle403Delay attempt jitter) else none

/-! ## State-machine lemmas and theorems (claims C2, C4, C6) -/

/-- On a non-Dzen platform, an error classified as 404 (and nothing else)
aborts the loop at any index. -/
lemma classify_pure404 (p : String) (hp : p ≠ "dzen") (a len : Nat) :
    classifyError p a len pure404 = .abort := by
  have hb : (p == "dzen") = false := beq_eq_false_iff_ne.mpr hp
  unfold classifyError pure404
  simp [hb]

/-- A 403-classified error always advances to the next ladder entry, with the
`handle_403_error` recovery applied only at ladder indices 0 and 1. -/
lemma classify_pure403 (p : String) (a len : Nat) :
    classifyError p a len pure403 =
      .advance (if a < 2 then .recover403 else .fallthrough) := by
  unfold classifyError pure403
  simp only [Bool.and_false, Bool.false_and, Bool.or_false, Bool.false_or,
    Bool.and_true, if_false, Bool.false_eq_true]
  split_ifs <;> rfl

/-- A generic (unclassified) error always advances to the next ladder entry. -/
lemma classify_generic (p : String) (a len : Nat) :
    classifyError p a len genericErr =
      .advance (if a < len - 1 then .genericDelay else .fallthrough) := by
  unfold classifyError genericErr
  simp only [Bool.and_false, Bool.false_and, Bool.or_false, Bool.false_or,
    Bool.and_true, if_false, Bool.false_eq_true]
  split_ifs <;> rfl

/-- With cancellation never observed, generic errors up to index `k` and a
pure 404 at `k`, the loop attempts exactly the prefix up to `k` and aborts. -/
lemma stdRunAux_abort_404 (p : String) (res : Nat → AttemptRes) (len : Nat)
    (hp : p ≠ "dzen") :
    ∀ fuel i k, i ≤ k → k < i + fuel →
      res k = .err pure404 →
      (∀ j, i ≤ j → j < k → res j = .err genericErr) →
      stdRunAux p (fun _ => false) res len i fuel =
        (false, List.range' i (k + 1 - i)) := by
  intro fuel
  induction fuel with
  | zero => intro i k hik hk _ _; omega
  | succ fuel ih =>
    intro i k hik hk h404 hgen
    rcases hik.eq_or_lt with rfl | hlt
    · simp only [stdRunAux, h404, classify_pure404 p hp i len]
      have h1 : i + 1 - i = 1 := by omega
      rw [h1]
      simp [List.range']
    · have hres : res i = .err genericErr := hgen i le_rfl hlt
      have hrec := ih (i + 1) k hlt (by omega) h404
        (fun j hj1 hj2 => hgen j (by omega) hj2)
      simp only [stdRunAux, hres, classify_generic, hrec]
      have h1 : k + 1 - i = (k - i) + 1 := by omega
      have h2 : k + 1 - (i + 1) = k - i := by omega
      rw [h1, h2]
      simp [List.range']

/-- C2 counterexample: on the Dzen platform a 404 on ladder entry 0 does
*not* terminate the job — the loop continues to entry 1 and the job even
succeeds there, refuting "regardless of platform". -/
theorem c2_notfound_aborts_counterexample :
    stdRun "dzen" (fun _ => false)
        (fun i => if i == 0 then .err pure404 else .ok) 2 = (true, [0, 1]) := by
  decide

/-- C2 amended: on every non-Dzen platform, when entry `k` fails with a
message classified (only) as 404 and all earlier entries failed generically,
the job terminates immediately with a failure outcome having attempted exactly
entries `0..k` — no later ladder entry is attempted.  (On Dzen, a 400/404 at
entry 0 instead retries the next format once and aborts only on a repeat.) -/
theorem c2_notfound_aborts_amended (p : String) (res : Nat → AttemptRes)
    (len k : Nat) (hp : p ≠ "dzen") (hk : k < len)
    (h404 : res k = .err pure404)
    (hgen : ∀ j, j < k → res j = .err genericErr) :
    stdRun p (fun _ => false) res len = (false, List.range (k + 1)) := by
  have h := stdRunAux_abort_404 p res len hp len 0 k (Nat.zero_le k) (by omega)
    h404 (fun j _ hj => hgen j hj)
  rw [stdRun, h, List.range_eq_range']
  simp

/-- C2 amended witness: youtube platform, generic failure on entry 0, 404 on
entry 1, ladder of length 3 — the job aborts after attempting entries 0, 1. -/
theorem c2_notfound_aborts_amended_witness :
    stdRun "youtube" (fun _ => false)
        (fun i => if i == 0 then .err genericErr else .err pure404) 3 =
      (false, List.range 2) := by
  have h := c2_notfound_aborts_amended "youtube"
    (fun i => if i == 0 then .err genericErr else .err pure404) 3 1
    (by decide) (by omega) (by decide)
    (fun j hj => by
      have : j = 0 := by omega
      subst this
      rfl)
  exact h

/-- Every attempted index carries a false cancellation flag: the flag is
checked at the head of each loop iteration, before the backend is invoked. -/
lemma stdRunAux_trace_flag (p : String) (c : Nat → Bool)
    (res : Nat → AttemptRes) (len : Nat) :
    ∀ fuel i, ∀ x ∈ (stdRunAux p c res len i fuel).2, c x = false := by
  intro fuel
  induction fuel with
  | zero => intro i x hx; simp [stdRunAux] at hx
  | succ fuel ih =>
    intro i x hx
    cases hc : c i with
    | true => simp [stdRunAux, hc] at hx
    | false =>
      rcases hres : res i with _ | e
      · simp [stdRunAux, hc, hres] at hx
        subst hx; exact hc
      · rcases hcl : classifyError p i len e with _ | r
        · simp [stdRunAux, hc, hres, hcl] at hx
          subst hx; exact hc
        · simp only [stdRunAux, hc, hres, hcl, Bool.false_eq_true, if_false,
            List.mem_cons] at hx
          rcases hx with rfl | hx
          · exact hc
          · exact ih (i + 1) x hx

/-- Attempted indices are bounded below by the loop's starting index. -/
lemma stdRunAux_trace_lb (p : String) (c : Nat → Bool)
    (res : Nat → AttemptRes) (len : Nat) :
    ∀ fuel i, ∀ x ∈ (stdRunAux p c res len i fuel).2, i ≤ x := by
  intro fuel
  induction fuel with
  | zero => intro i x hx; simp [stdRunAux] at hx
  | succ fuel ih =>
    intro i x hx
    cases hc : c i with
    | true => simp [stdRunAux, hc] at hx
    | false =>
      rcases hres : res i with _ | e
      · simp [stdRunAux, hc, hres] at hx; omega
      · rcases hcl : classifyError p i len e with _ | r
        · simp [stdRunAux, hc, hres, hcl] at hx; omega
        · simp only [stdRunAux, hc, hres, hcl, Bool.false_eq_true, if_false,
            List.mem_cons] at hx
          rcases hx with rfl | hx
          · exact le_rfl
          · exact le_trans (Nat.le_succ i) (ih (i + 1) x hx)

/-- The trace of attempted ladder indices is strictly increasing: the loop
never attempts the same ladder entry twice (every `continue` moves to the
next entry). -/
lemma stdRunAux_trace_chain (p : String) (c : Nat → Bool)
    (res : Nat → AttemptRes) (len : Nat) :
    ∀ fuel i, List.Chain' (· < ·) (stdRunAux p c res len i fuel).2 := by
  intro fuel
  induction fuel with
  | zero => intro i; simp [stdRunAux]
  | succ fuel ih =>
    intro i
    cases hc : c i with
    | true => simp [stdRunAux, hc]
    | false =>
      rcases hres : res i with _ | e
      · simp [stdRunAux, hc, hres]
      · rcases hcl : classifyError p i len e with _ | r
        · simp [stdRunAux, hc, hres, hcl]
        · simp only [stdRunAux, hc, hres, hcl, Bool.false_eq_true, if_false]
          rw [List.chain'_cons']
          refine ⟨fun y hy => ?_, ih (i + 1)⟩
          have hmem : y ∈ (stdRunAux p c res len (i + 1) fuel).2 :=
            List.mem_of_mem_head? hy
          have := stdRunAux_trace_lb p c res len fuel (i + 1) y hmem
          omega

/-- A successful outcome requires some backend attempt to have succeeded. -/
lemma stdRunAux_success_requires_ok (p : String) (c : Nat → Bool)
    (res : Nat → AttemptRes) (len : Nat) :
    ∀ fuel i, (stdRunAux p c res len i fuel).1 = true → ∃ j, res j = .ok := by
  intro fuel
  induction fuel with
  | zero => intro i h; simp [stdRunAux] at h
  | succ fuel ih =>
    intro i h
    cases hc : c i with
    | true => simp [stdRunAux, hc] at h
    | false =>
      rcases hres : res i with _ | e
      · exact ⟨i, hres⟩
      · rcases hcl : classifyError p i len e with _ | r
        · simp [stdRunAux, hc, hres, hcl] at h
        · simp only [stdRunAux, hc, hres, hcl, Bool.false_eq_true, if_false] at h
          exact ih (i + 1) h

/-- C4 counterexample: after a 403 on entry 0 (with recovery available), the
machine attempts entry 1 — the *next* ladder entry — and never re-attempts
entry 0 (it appears exactly once in the trace).  This refutes "retries that
same entry at most 2 extra times". -/
theorem c4_403_same_entry_counterexample :
    stdRun "unknown" (fun _ => false)
        (fun i => if i == 0 then .err pure403 else .ok) 3 = (true, [0, 1]) ∧
      ((stdRun "unknown" (fun _ => false)
          (fun i => if i == 0 then .err pure403 else .ok) 3).2).count 0 = 1 := by
  constructor <;> decide

/-- C4 amended: on a 403-classified failure, `handle_403_error` rotates the
user-agent round-robin by attempt count (period = pool size 5) and applies an
increasing backoff delay capped at 30 seconds (for attempt > 0); the recovery
is applied only while the ladder index is below 2; and the state machine then
moves to the *next* ladder entry — no ladder entry is ever attempted twice. -/
theorem c4_403_recovery_amended :
    (∀ a, handle403UserAgentIndex (a + 5) = handle403UserAgentIndex a) ∧
      (∀ a (j : ℚ), handle403Delay a j ≤ 30) ∧
      (∀ a b : Nat, ∀ j : ℚ, a ≤ b → handle403Delay a j ≤ handle403Delay b j) ∧
      (∀ (p : String) (a len : Nat), classifyError p a len pure403 =
          .advance (if a < 2 then .recover403 else .fallthrough)) ∧
      (∀ (p : String) (c : Nat → Bool) (res : Nat → AttemptRes) (len : Nat),
          List.Chain' (· < ·) (stdRun p c res len).2) := by
  refine ⟨?_, ?_, ?_, classify_pure403, ?_⟩
  · intro a
    simp only [handle403UserAgentIndex, fallbackUserAgents, List.length_cons,
      List.length_nil]
    omega
  · intro a j
    exact min_le_left _ _
  · intro a b j hab
    unfold handle403Delay
    have hc : (a : ℚ) ≤ (b : ℚ) := Nat.cast_le.mpr hab
    apply min_le_min le_rfl
    linarith
  · intro p c res len
    exact stdRunAux_trace_chain p c res len len 0

/-- C4 amended witness at concrete inputs. -/
theorem c4_403_recovery_amended_witness :
    handle403UserAgentIndex (1 + 5) = handle403UserAgentIndex 1 ∧
      handle403Delay 1 2 ≤ 30 ∧
      handle403Delay 0 2 ≤ handle403Delay 1 2 ∧
      classifyError "youtube" 0 12 pure403 = .advance .recover403 ∧
      List.Chain' (· < ·)
        (stdRun "youtube" (fun _ => false) (fun _ => .err pure403) 12).2 := by
  have h := c4_403_recovery_amended
  refine ⟨h.1 1, h.2.1 1 2, h.2.2.1 0 1 2 (by omega), ?_, h.2.2.2.2 "youtube" _ _ 12⟩
  have h4 := h.2.2.2.1 "youtube" 0 12
  simpa using h4

/-- C6: once the per-job cancellation flag (monotone: set once by an external
actor, never reset during the job) is true at check point `k`, no ladder entry
with index ≥ `k` is ever attempted, and if no backend attempt succeeded the
job's outcome is failure.  This covers both observation sites: the check at
the head of each loop iteration, and a cancellation raised inside the progress
hook during attempt `k - 1`, which surfaces as that attempt's generic failure
followed by the head check at `k`. -/
theorem c6_cancellation_terminal (p : String) (c : Nat → Bool)
    (res : Nat → AttemptRes) (len k : Nat)
    (hmono : ∀ i j, i ≤ j → c i = true → c j = true)
    (hk : c k = true) :
    (∀ idx ∈ (stdRun p c res len).2, idx < k) ∧
      ((∀ i, res i ≠ .ok) → (stdRun p c res len).1 = false) := by
  constructor
  · intro idx hidx
    have hflag := stdRunAux_trace_flag p c res len len 0 idx hidx
    by_contra hge
    push_neg at hge
    have htrue := hmono k idx hge hk
    rw [hflag] at htrue
    exact Bool.false_ne_true htrue
  · intro hok
    by_contra h
    have h1 : (stdRun p c res len).1 = true := by
      revert h
      cases (stdRun p c res len).1 <;> simp
    obtain ⟨j, hj⟩ := stdRunAux_success_requires_ok p c res len len 0 h1
    exact hok j hj

/-- C6 witness: flag already set at job start — nothing is attempted and the
outcome is failure. -/
theorem c6_cancellation_terminal_witness :
    (∀ idx ∈ (stdRun "youtube" (fun _ => true)
        (fun _ => .err genericErr) 3).2, idx < 0) ∧
      (stdRun "youtube" (fun _ => true) (fun _ => .err genericErr) 3).1 = false := by
  have h := c6_cancellation_terminal "youtube" (fun _ => true)
    (fun _ => .err genericErr) 3 0 (fun _ _ _ hc => hc) rfl
  exact ⟨h.1, h.2 (fun i hi => AttemptRes.noConfusion hi)⟩

/-! ## SSL fallback (claim C5)

Shallow embedding of `_ydl_download_with_ssl_fallback` (lines 1342-1406).
Each `ydl.download` invocation consumes the next element of an outcome stream
`f : Nat → DlRes`; the function returns the Boolean result together with the
trace of invocations, each flagged `true` when it was the one-time
`nocheckcertificate=True` bypass retry.  `insecure` is `self.insecure_ssl`. -/

/-- Classification of one `ydl.download` invocation's outcome. -/
inductive DlRes
  /-- The download completed. -/
  | ok
  /-- `_is_ssl_error(str(e))` holds. -/
  | sslErr
  /-- `'WinError 5' in err_str or 'Access is denied' in err_str`. -/
  | winErr
  /-- Any other exception. -/
  | otherErr
deriving DecidableEq

/-- The `for retry in range(3)` loop: `n` counts invocations made so far,
`fuel` the remaining loop iterations.  The trace marks each invocation with
whether it was the SSL-bypass retry. -/
def sslRunAux (insecure : Bool) (f : Nat → DlRes) : Nat → Nat → Bool × List Bool
  | _, 0 => (false, [])
  | n, fuel + 1 =>
    match f n with
    | .ok => (true, [false])
    | .otherErr => (false, [false])
    | .winErr =>
      if 0 < fuel then
        let rest := sslRunAux insecure f (n + 1) fuel
        (rest.1, false :: rest.2)
      else (false, [false])
    | .sslErr =>
      if insecure then (false, [false])
      else
        match f (n + 1) with
        | .ok => (true, [false, true])
        | .winErr =>
          if 0 < fuel then
            let rest := sslRunAux insecure f (n + 2) fuel
            (rest.1, false :: true :: rest.2)
          else (false, [false, true])
        | _ => (false, [false, true])

/-- `_ydl_download_with_ssl_fallback` with `max_retries = 3`. -/
def sslRun (insecure : Bool) (f : Nat → DlRes) : Bool × List Bool :=
  sslRunAux insecure f 0 3

/-- C5: when certificate verification is enabled (insecure mode off), an SSL
verification failure is retried exactly once with verification disabled: a
second SSL failure of that bypass attempt reports failure with no further
invocations, while a bypass success reports success — in both cases the trace
is one verified invocation followed by exactly one bypass invocation.  When
insecure mode is already on, an SSL failure reports failure immediately with
no bypass retry. -/
theorem c5_ssl_bypass_once (f : Nat → DlRes) (h0 : f 0 = .sslErr) :
    (f 1 = .sslErr → sslRun false f = (false, [false, true])) ∧
      (f 1 = .ok → sslRun false f = (true, [false, true])) ∧
      sslRun true f = (false, [false]) := by
  refine ⟨fun h1 => ?_, fun h1 => ?_, ?_⟩ <;>
    simp [sslRun, sslRunAux, h0, *]

/-- C5 witness: a stream failing with SSL errors on every invocation. -/
theorem c5_ssl_bypass_once_witness :
    sslRun false (fun _ => DlRes.sslErr) = (false, [false, true]) ∧
      sslRun true (fun _ => DlRes.sslErr) = (false, [false]) := by
  have h := c5_ssl_bypass_once (fun _ => DlRes.sslErr) rfl
  exact ⟨h.1 rfl, h.2.2⟩

/-! ## Trim post-processing (claim C7)

Shallow embedding of `_apply_trim_to_file` (lines 670-740) and its helper
`_trim_video`.  Times are modelled as rationals; the ffmpeg invocation and the
delete/rename filesystem operations are oracles (`trimSuccess`, `renameOk`),
and the observable effects are traced. -/

/-- The side effects `_apply_trim_to_file` can perform. -/
inductive TrimEffect
  /-- An ffmpeg trim invocation (`_trim_video`). -/
  | transcode
  /-- `original_path.unlink()`. -/
  | deleteOrig
  /-- `trimmed_path.rename(original_path)`. -/
  | renameTrimmed
deriving DecidableEq

/-- Result of `_apply_trim_to_file`: the returned path, the effect trace, and
whether the degenerate-range skip message was reported. -/
structure TrimOutcome where
  /-- The path returned to the caller. -/
  path : String
  /-- The side effects performed, in order. -/
  effects : List TrimEffect
  /-- `'Invalid trim parameters (end <= start), skipping trim'` was printed. -/
  skippedDegenerate : Bool
deriving DecidableEq

/-- `start = float(trim_start) if trim_start is not None else 0`, then
`if start < 0: start = 0`. -/
def resolvedTrimStart (ts : Option ℚ) : ℚ :=
  let s := ts.getD 0
  if s < 0 then 0 else s

/-- `end = float(trim_end) if trim_end is not None else 999999`. -/
def resolvedTrimEnd (te : Option ℚ) : ℚ :=
  te.getD 999999

/-- `original_path.stem + '_trimmed' + original_path.suffix`: insert
`_trimmed` before the final extension (append it when there is none). -/
def trimmedName (p : String) : String :=
  match (p.splitOn ".").reverse with
  | [] => p ++ "_trimmed"
  | [_] => p ++ "_trimmed"
  | ext :: revInit =>
    String.intercalate "." revInit.reverse ++ "_trimmed." ++ ext

/-- `_apply_trim_to_file(filepath)` with the downloader's `trim_start` /
`trim_end` fields and the filesystem/ffmpeg outcomes as parameters.
`trimSuccess` is `_trim_video(...) and trimmed_path.exists()`; `renameOk`
is whether the rename to the original name eventually succeeds within its
3 retries. -/
def applyTrimToFile (trimStart trimEnd : Option ℚ) (filepath : String)
    (trimSuccess renameOk : Bool) : TrimOutcome :=
  if trimStart = none ∧ trimEnd = none then ⟨filepath, [], false⟩
  else
    let s := resolvedTrimStart trimStart
    let e := resolvedTrimEnd trimEnd
    if e ≤ s then ⟨filepath, [], true⟩
    else
      let tp := trimmedName filepath
      if trimSuccess then
        if renameOk then ⟨filepath, [.transcode, .deleteOrig, .renameTrimmed], false⟩
        else ⟨tp, [.transcode, .deleteOrig], false⟩
      else ⟨filepath, [.transcode], false⟩

/-- C7: for every file path and every trim request whose resolved range has
`end ≤ start`, the trim is skipped non-fatally: the original path is returned,
no transcoder invocation, no delete and no rename take place (so the file's
bytes are untouched), and the skip is reported — independently of the ffmpeg
and filesystem oracles. -/
theorem c7_degenerate_trim_skipped (ts te : Option ℚ) (p : String)
    (trimSuccess renameOk : Bool)
    (hreq : ts ≠ none ∨ te ≠ none)
    (hdeg : resolvedTrimEnd te ≤ resolvedTrimStart ts) :
    applyTrimToFile ts te p trimSuccess renameOk = ⟨p, [], true⟩ := by
  unfold applyTrimToFile
  have hne : ¬(ts = none ∧ te = none) := by
    rcases hreq with h | h <;> exact fun hc => h (by simp [hc.1, hc.2])
  rw [if_neg hne, if_pos hdeg]

/-- C7 witness: a request to trim from second 10 to second 5 is skipped. -/
theorem c7_degenerate_trim_skipped_witness :
    applyTrimToFile (some 10) (some 5) "video.mp4" true true =
      ⟨"video.mp4", [], true⟩ :=
  c7_degenerate_trim_skipped (some 10) (some 5) "video.mp4" true true
    (Or.inl (by simp)) (by norm_num [resolvedTrimEnd, resolvedTrimStart])

/-! ## Dual-stream format selection (claim C8)

Shallow embedding of the candidate-selection step of `_select_formats`
(lines 1510-1525): Python's stable `list.sort` on a key tuple followed by
`[0]` becomes a stable insertion sort under the lexicographic key order
followed by `head?`.  A `FormatCandidate` carries the fields the sort keys
read: the computed `_reliability_score`, `height`, and the `tbr`/`vbr`/`abr`
bitrates (`0` models a missing or null value, matching Python's falsy `or`
chain). -/

/-- The fields of a format dict read by the selection sort keys. -/
structure FormatCandidate where
  /-- `_reliability_score` computed by the filtering pass. -/
  score : Int
  /-- `x.get('height', 0)`. -/
  height : Int
  /-- `x.get('tbr', 0)` (0 = missing/null). -/
  tbr : ℚ
  /-- `x.get('vbr', 0)`. -/
  vbr : ℚ
  /-- `x.get('abr', 0)`. -/
  abr : ℚ
deriving DecidableEq

/-- `quality_heights.get(quality.lower(), 1080)` (lines 1418-1422). -/
def videoTargetHeight (quality : String) : Int :=
  let lq := strToLower quality
  if lq = "best" then 2160 else if lq = "4k" then 2160
  else if lq = "1440p" then 1440 else if lq = "1080p" then 1080
  else if lq = "720p" then 720 else if lq = "480p" then 480
  else if lq = "360p" then 360 else 1080

/-- `x.get('tbr', 0) or x.get('vbr', 0) or 0`. -/
def videoBitrate (f : FormatCandidate) : ℚ :=
  if f.tbr ≠ 0 then f.tbr else if f.vbr ≠ 0 then f.vbr else 0

/-- `x.get('abr', 0) or x.get('tbr', 0) or 0`. -/
def audioBitrate (f : FormatCandidate) : ℚ :=
  if f.abr ≠ 0 then f.abr else if f.tbr ≠ 0 then f.tbr else 0

/-- The video sort key
`(-score, abs(height - target), -height, -(tbr or vbr or 0))`, compared
lexicographically as by Python tuple comparison. -/
def videoKey (t : Int) (f : FormatCandidate) : Int ×ₗ Int ×ₗ Int ×ₗ ℚ :=
  toLex (-f.score, toLex (|f.height - t|, toLex (-f.height, -(videoBitrate f))))

/-- The audio sort key `(-score, -(abr or tbr or 0))`. -/
def audioKey (f : FormatCandidate) : Int ×ₗ ℚ :=
  toLex (-f.score, -(audioBitrate f))

/-- Sort order of the video candidate list. -/
def videoLE (t : Int) (a b : FormatCandidate) : Prop := videoKey t a ≤ videoKey t b

/-- Sort order of the audio candidate list. -/
def audioLE (a b : FormatCandidate) : Prop := audioKey a ≤ audioKey b

instance (t : Int) : DecidableRel (videoLE t) :=
  fun a b => inferInstanceAs (Decidable (videoKey t a ≤ videoKey t b))

instance : DecidableRel audioLE :=
  fun a b => inferInstanceAs (Decidable (audioKey a ≤ audioKey b))

instance (t : Int) : IsTotal FormatCandidate (videoLE t) := ⟨fun _ _ => le_total _ _⟩

instance (t : Int) : IsTrans FormatCandidate (videoLE t) := ⟨fun _ _ _ => le_trans⟩

instance : IsTotal FormatCandidate audioLE := ⟨fun _ _ => le_total _ _⟩

instance : IsTrans FormatCandidate audioLE := ⟨fun _ _ _ => le_trans⟩

/-- `video_formats.sort(key=...)` followed by `video_formats[0]`. -/
def selectVideoFormat (quality : String) (candidates : List FormatCandidate) :
    Option FormatCandidate :=
  (candidates.insertionSort (videoLE (videoTargetHeight quality))).head?

/-- `audio_formats.sort(key=...)` followed by `audio_formats[0]`. -/
def selectAudioFormat (candidates : List FormatCandidate) :
    Option FormatCandidate :=
  (candidates.insertionSort audioLE).head?

/-- The claim's wording for the video candidate: reliability score descending,
then absolute distance of height from the tier's target ascending, ties broken
toward higher height and then higher bitrate. -/
def specVideoPreferred (t : Int) (f g : FormatCandidate) : Prop :=
  g.score < f.score ∨
    (f.score = g.score ∧
      (|f.height - t| < |g.height - t| ∨
        (|f.height - t| = |g.height - t| ∧
          (g.height < f.height ∨
            (f.height = g.height ∧ videoBitrate g ≤ videoBitrate f)))))

/-- The claim's wording for the audio candidate: reliability score descending
then bitrate descending. -/
def specAudioPreferred (f g : FormatCandidate) : Prop :=
  g.score < f.score ∨ (f.score = g.score ∧ audioBitrate g ≤ audioBitrate f)

/-- The code's lexicographic video key order coincides with the claim's
described preference. -/
lemma videoLE_iff (t : Int) (f g : FormatCandidate) :
    videoLE t f g ↔ specVideoPreferred t f g := by
  unfold videoLE videoKey specVideoPreferred
  simp only [Prod.Lex.le_iff, neg_lt_neg_iff, neg_inj, neg_le_neg_iff]

/-- The code's lexicographic audio key order coincides with the claim's
described preference. -/
lemma audioLE_iff (f g : FormatCandidate) :
    audioLE f g ↔ specAudioPreferred f g := by
  unfold audioLE audioKey specAudioPreferred
  simp only [Prod.Lex.le_iff, neg_lt_neg_iff, neg_inj, neg_le_neg_iff]

/-- The head of a (stable) insertion sort under a total transitive order is a
member of the list that is no worse than every member. -/
lemma head_insertionSort_min {α : Type} (r : α → α → Prop) [DecidableRel r]
    [IsTotal α r] [IsTrans α r] (l : List α) (a : α)
    (h : (l.insertionSort r).head? = some a) :
    a ∈ l ∧ ∀ b ∈ l, r a b := by
  have hs := List.sorted_insertionSort r l
  have hp := List.perm_insertionSort r l
  cases hsort : l.insertionSort r with
  | nil => rw [hsort] at h; exact absurd h (by simp)
  | cons x t =>
    rw [hsort] at h hs hp
    have hx : a = x := by simpa using h.symm
    subst hx
    refine ⟨hp.mem_iff.mp (List.mem_cons_self a t), fun b hb => ?_⟩
    rcases List.mem_cons.mp (hp.mem_iff.mpr hb) with rfl | hbt
    · exact (IsTotal.total b b).elim id id
    · exact List.rel_of_sorted_cons hs b hbt

/-- C8: whenever the dual-stream pipeline selects candidates, the selected
video-only candidate is drawn from the candidate list and is optimal for the
claim's criteria — reliability score descending, then absolute distance of
height from the requested tier's target height ascending, ties broken toward
higher height and then higher bitrate — and the selected audio-only candidate
is optimal for reliability score descending then bitrate descending. -/
theorem c8_dual_stream_selection :
    (∀ (quality : String) (candidates : List FormatCandidate)
        (f : FormatCandidate),
        selectVideoFormat quality candidates = some f →
          f ∈ candidates ∧
            ∀ g ∈ candidates, specVideoPreferred (videoTargetHeight quality) f g) ∧
      (∀ (candidates : List FormatCandidate) (f : FormatCandidate),
          selectAudioFormat candidates = some f →
            f ∈ candidates ∧ ∀ g ∈ candidates, specAudioPreferred f g) := by
  constructor
  · intro q cs f h
    obtain ⟨hmem, hall⟩ :=
      head_insertionSort_min (videoLE (videoTargetHeight q)) cs f h
    exact ⟨hmem, fun g hg => (videoLE_iff _ f g).mp (hall g hg)⟩
  · intro cs f h
    obtain ⟨hmem, hall⟩ := head_insertionSort_min audioLE cs f h
    exact ⟨hmem, fun g hg => (audioLE_iff f g).mp (hall g hg)⟩

/-- C8 witness: among a 720-height low-reliability video candidate and a
480-height reliable one the reliable one wins; among two reliable audio
candidates the higher-bitrate one wins. -/
theorem c8_dual_stream_selection_witness :
    ((⟨1, 480, 50, 0, 0⟩ : FormatCandidate) ∈
        [(⟨0, 720, 100, 0, 0⟩ : FormatCandidate), ⟨1, 480, 50, 0, 0⟩] ∧
      ∀ g ∈ [(⟨0, 720, 100, 0, 0⟩ : FormatCandidate), ⟨1, 480, 50, 0, 0⟩],
        specVideoPreferred (videoTargetHeight "720p") ⟨1, 480, 50, 0, 0⟩ g) ∧
      ((⟨1, 0, 0, 0, 160⟩ : FormatCandidate) ∈
          [(⟨1, 0, 0, 0, 128⟩ : FormatCandidate), ⟨1, 0, 0, 0, 160⟩] ∧
        ∀ g ∈ [(⟨1, 0, 0, 0, 128⟩ : FormatCandidate), ⟨1, 0, 0, 0, 160⟩],
          specAudioPreferred ⟨1, 0, 0, 0, 160⟩ g) :=
  ⟨c8_dual_stream_selection.1 "720p" _ _ (by decide),
    c8_dual_stream_selection.2 _ _ (by decide)⟩

/-! ## Metadata cache (claim C9)

Shallow embedding of `_get_cached_video_info` / `_cache_video_info`
(src/web_app.py lines 197-242).  The dict `_video_info_cache` becomes an
association list in insertion order (Python dicts preserve it); the cached
payload is opaque (`Nat`); `time.time()` values are rationals.  Keys in a live
cache are unique — the dict invariant, taken as a hypothesis where needed. -/

/-- One cache slot: `_video_info_cache[url] = (info, timestamp)`. -/
structure CacheEntry where
  /-- The URL key. -/
  url : String
  /-- The cached video-info payload (opaque). -/
  info : Nat
  /-- The insertion timestamp. -/
  timestamp : ℚ
deriving DecidableEq

/-- `_cache_ttl = 300`. -/
def cacheTTL : ℚ := 300

/-- The hard entry-count ceiling (`len(_video_info_cache) > 100`). -/
def cacheCeiling : Nat := 100

/-- `sorted(..., key=lambda x: x[1][1])`: order by insertion timestamp. -/
def tsLE (a b : CacheEntry) : Prop := a.timestamp ≤ b.timestamp

instance : DecidableRel tsLE :=
  fun a b => inferInstanceAs (Decidable (a.timestamp ≤ b.timestamp))

instance : IsTotal CacheEntry tsLE := ⟨fun _ _ => le_total _ _⟩

instance : IsTrans CacheEntry tsLE := ⟨fun _ _ _ => le_trans⟩

/-- `_get_cached_video_info(url)`: return the entry if present and younger
than the TTL; delete it and miss if present but expired.  Returns the lookup
result together with the cache after the call. -/
def lookupCache (now : ℚ) (cache : List CacheEntry) (url : String) :
    Option Nat × List CacheEntry :=
  match cache.find? (fun e => e.url == url) with
  | none => (none, cache)
  | some e =>
    if now - e.timestamp < cacheTTL then (some e.info, cache)
    else (none, cache.filter (fun e2 => e2.url != url))

/-- `_video_info_cache[url] = (info, now)`: replace in place when the key
exists (dicts preserve the original position), append otherwise. -/
def upsert (cache : List CacheEntry) (e : CacheEntry) : List CacheEntry :=
  match cache with
  | [] => [e]
  | x :: xs => if x.url == e.url then e :: xs else x :: upsert xs e

/-- The size check of `_cache_video_info`: when the entry count exceeds the
ceiling, delete the 20 entries with the oldest timestamps
(`sorted_items[:20]`). -/
def evictOldest (c : List CacheEntry) : List CacheEntry :=
  if c.length > cacheCeiling then
    c.filter
      (fun e => decide (e.url ∉ ((c.insertionSort tsLE).take 20).map CacheEntry.url))
  else c

/-- `_cache_video_info(url, info)`. -/
def insertCache (now : ℚ) (cache : List CacheEntry) (url : String)
    (info : Nat) : List CacheEntry :=
  evictOldest (upsert cache ⟨url, info, now⟩)

/-- Every evicted entry is at least as old as every surviving entry. -/
lemma evictOldest_oldest_first (c : List CacheEntry)
    (hnd : (c.map CacheEntry.url).Nodup) (hlen : c.length > cacheCeiling) :
    ∀ e ∈ c, e ∉ evictOldest c →
      ∀ e2 ∈ evictOldest c, e.timestamp ≤ e2.timestamp := by
  intro e he hout e2 he2
  rw [evictOldest, if_pos hlen] at hout he2
  have hperm := List.perm_insertionSort tsLE c
  have hsortnd : ((c.insertionSort tsLE).map CacheEntry.url).Nodup :=
    ((hperm.map CacheEntry.url).nodup_iff).mpr hnd
  have hinj := List.inj_on_of_nodup_map hsortnd
  have hsorted := List.sorted_insertionSort tsLE c
  have hmem : e.url ∈ ((c.insertionSort tsLE).take 20).map CacheEntry.url := by
    by_contra hco
    exact hout (List.mem_filter.mpr ⟨he, by simpa using hco⟩)
  obtain ⟨v, hv, hveq⟩ := List.mem_map.mp hmem
  have hvs : v ∈ c.insertionSort tsLE := List.mem_of_mem_take hv
  have hes : e ∈ c.insertionSort tsLE := hperm.mem_iff.mpr he
  have hv_eq_e : v = e := hinj hvs hes hveq
  have he2f := List.mem_filter.mp he2
  have he2mem : e2 ∈ c.insertionSort tsLE := hperm.mem_iff.mpr he2f.1
  have he2url : e2.url ∉ ((c.insertionSort tsLE).take 20).map CacheEntry.url := by
    simpa using he2f.2
  have he2drop : e2 ∈ (c.insertionSort tsLE).drop 20 := by
    rcases List.mem_append.mp
        (by rw [List.take_append_drop]; exact he2mem :
          e2 ∈ (c.insertionSort tsLE).take 20 ++ (c.insertionSort tsLE).drop 20)
      with h | h
    · exact absurd (List.mem_map_of_mem CacheEntry.url h) he2url
    · exact h
  have hpw : List.Pairwise tsLE
      ((c.insertionSort tsLE).take 20 ++ (c.insertionSort tsLE).drop 20) := by
    rw [List.take_append_drop]; exact hsorted
  exact (List.pairwise_append.mp hpw).2.2 e (hv_eq_e ▸ hv) e2 he2drop

/-- C9: (a) whenever an insertion pushes the entry count above the ceiling,
the evicted entries are the oldest first — every deleted entry's timestamp is
at most every surviving entry's timestamp (under the dict invariant of unique
keys); and (b) a lookup never returns an entry whose age is at least the TTL:
when every entry under the key is expired, the lookup misses and the
expired entry is removed from the cache. -/
theorem c9_cache_eviction_and_ttl :
    (∀ (now : ℚ) (cache : List CacheEntry) (url : String) (info : Nat),
        ((upsert cache ⟨url, info, now⟩).map CacheEntry.url).Nodup →
        (upsert cache ⟨url, info, now⟩).length > cacheCeiling →
        ∀ e ∈ upsert cache ⟨url, info, now⟩,
          e ∉ insertCache now cache url info →
            ∀ e2 ∈ insertCache now cache url info,
              e.timestamp ≤ e2.timestamp) ∧
      (∀ (now : ℚ) (cache : List CacheEntry) (url : String),
          (∀ e ∈ cache, e.url = url → cacheTTL ≤ now - e.timestamp) →
          (lookupCache now cache url).1 = none ∧
            ∀ e ∈ (lookupCache now cache url).2, e.url ≠ url) := by
  constructor
  · intro now cache url info hnd hlen e he hout e2 he2
    exact evictOldest_oldest_first (upsert cache ⟨url, info, now⟩) hnd hlen
      e he hout e2 he2
  · intro now cache url hexp
    unfold lookupCache
    cases hfind : cache.find? (fun e => e.url == url) with
    | none =>
      refine ⟨rfl, fun e he hurl => ?_⟩
      exact List.find?_eq_none.mp hfind e he (by simpa using hurl)
    | some e0 =>
      have hmem := List.mem_of_find?_eq_some hfind
      have hurl : e0.url = url := by simpa using List.find?_some hfind
      have hlt : ¬(now - e0.timestamp < cacheTTL) :=
        not_lt.mpr (hexp e0 hmem hurl)
      refine ⟨by simp [if_neg hlt], fun x hx => ?_⟩
      simp only [if_neg hlt] at hx
      simpa using (List.mem_filter.mp hx).2

/-- A concrete cache of 101 distinct-key entries with timestamps 0..100. -/
def bigCache : List CacheEntry :=
  (List.range 101).map (fun i => ⟨"u" ++ toString i, 0, (i : ℚ)⟩)

/-- C9 witness: re-inserting key `u50` at time 200 into the 101-entry cache
evicts the 20 oldest entries (`u0` among them, `u100` surviving), and a lookup
at time 400 of an entry stamped 0 misses and removes it. -/
theorem c9_cache_eviction_and_ttl_witness :
    (⟨"u0", 0, 0⟩ : CacheEntry).timestamp ≤
        (⟨"u100", 0, 100⟩ : CacheEntry).timestamp ∧
      ((lookupCache 400 [⟨"a", 1, 0⟩] "a").1 = none ∧
        ∀ e ∈ (lookupCache 400 [⟨"a", 1, 0⟩] "a").2, e.url ≠ "a") :=
  ⟨c9_cache_eviction_and_ttl.1 200 bigCache "u50" 7 (by decide) (by decide)
      ⟨"u0", 0, 0⟩ (by decide) (by decide) ⟨"u100", 0, 100⟩ (by decide),
    c9_cache_eviction_and_ttl.2 400 [⟨"a", 1, 0⟩] "a"
      (by
        intro e he heq
        have he1 : e = ⟨"a", 1, 0⟩ := List.mem_singleton.mp he
        subst he1
        norm_num [cacheTTL])⟩

end YTDL
